import Mathlib

/-!
Verification of the slideflow_fork sources against their specification.

Shallow embedding conventions:
* 2-D tensors / numpy arrays of shape [N, F] are `List (List ℚ)` (N rows,
  each of length F); the column count F is carried separately where the
  source relies on tensor shape metadata.
* `torch.randperm(N)` is modelled by an explicit permutation argument
  `perm : List ℕ` together with the hypothesis `perm ~ List.range N`.
* Fallible code returns `Except String`.
-/

namespace Slideflow

/-- A 2-D matrix of rationals (rows of equal length). -/
abbrev Mat := List (List ℚ)

/-- A 4-D tensor of shape [N, C, H, W], used for the `dim > 2` input case of
`_to_fixed_size_bag`. -/
abbrev Tens4 := List (List (List (List ℚ)))

/-! ### `_to_fixed_size_bag` (src/slideflow/mil/data.py, lines 95-115) -/

/-- 2-D input case of `_to_fixed_size_bag` (`bag.dim() == 2`, so
`bag_flattened = bag`).  `perm` models the result of
`torch.randperm(bag.shape[0])`; `F` is the column count `bag.shape[1]`
carried by the tensor's shape metadata.  Mirrors:
`bag_idxs = torch.randperm(bag.shape[0])[:bag_size]`,
`bag_samples = bag[bag_idxs]`, then concatenation with
`torch.zeros(bag_size - bag_samples.shape[0], bag_samples.shape[1])`,
returning `(zero_padded, min(bag_size, len(bag)))`. -/
def to_fixed_size_bag (perm : List ℕ) (F : ℕ) (bag : Mat) (bag_size : ℕ) :
    Mat × ℕ :=
  let bag_idxs := perm.take bag_size
  let bag_samples := bag_idxs.map (fun i => bag.getD i [])
  let zero_padded :=
    bag_samples ++ List.replicate (bag_size - bag_samples.length) (List.replicate F 0)
  (zero_padded, min bag_size bag.length)

/-- Model of `bag.mean(dim=[2, 3])` on a [N, C, H, W] tensor: entry (n, c) is the
mean of the H×W sub-matrix.  This is the `bag_flattened` value computed on
line 101 of src/slideflow/mil/data.py. -/
def mean_last_two (bag : Tens4) : Mat :=
  bag.map (fun inst =>
    inst.map (fun mat =>
      let flat := mat.flatten
      flat.sum / (flat.length : ℚ)))

/-- The sampling step of `_to_fixed_size_bag` for a `dim > 2` input, as the
source performs it (line 105-106): `bag_idxs = torch.randperm(bag.shape[0])[:bag_size]`
followed by `bag_samples = bag[bag_idxs]` — indexing the original,
unreduced `bag`, not `bag_flattened`. -/
def fixed_size_samples_4d (perm : List ℕ) (bag : Tens4) (bag_size : ℕ) :
    Tens4 :=
  (perm.take bag_size).map (fun i => bag.getD i [])

/-- The sampling step as the specification describes it: rows are drawn
from the averaged 2-D reduction (`bag_flattened`) of a `dim > 2` bag.
Second definition following the spec's words, for comparison with
`fixed_size_samples_4d`. -/
def fixed_size_samples_spec (perm : List ℕ) (bag : Tens4) (bag_size : ℕ) :
    Mat :=
  (perm.take bag_size).map (fun i => (mean_last_two bag).getD i [])

/-! ### `MultiBagDataset.__getitem__` (src/slideflow/mil/data.py, lines 215-236) -/

/-- A Python value as it can appear as one element of a per-slide bag list
handed to `MultiBagDataset`: a file path string, a numpy array, a torch
tensor, or something else (`other` carries the type name that
`type(bag)` would print). -/
inductive PyVal where
  | str (s : String)
  | ndarray (m : Mat)
  | tensor (m : Mat)
  | pylist (l : List PyVal)
  | other (typeName : String)

/-- Python `isinstance(v, str)`. -/
def PyVal.isStr : PyVal → Bool
  | .str _ => true
  | _ => false

/-- Python `isinstance(v, np.ndarray)`. -/
def PyVal.isNdarray : PyVal → Bool
  | .ndarray _ => true
  | _ => false

/-- Python `isinstance(v, torch.Tensor)`. -/
def PyVal.isTensor : PyVal → Bool
  | .tensor _ => true
  | _ => false

/-- The string `type(v)` prints inside the `ValueError` message. -/
def PyVal.pyTypeName : PyVal → String
  | .str _ => "<class 'str'>"
  | .ndarray _ => "<class 'numpy.ndarray'>"
  | .tensor _ => "<class 'torch.Tensor'>"
  | .pylist _ => "<class 'list'>"
  | .other t => t

/-- Numeric payload of an ndarray/tensor `PyVal` (used once the isinstance
checks have matched). -/
def PyVal.matOf : PyVal → Mat
  | .ndarray m => m
  | .tensor m => m
  | _ => []

/-- The bag-loading loop of `MultiBagDataset.__getitem__` (lines 220-230).
`container` is `self.bags[index]`, a Python list per the dataclass type
annotation; `load` models `torch.load(path).to(torch.float32)`.  The
source's `elif` conditions test `self.bags[index]` (the container), not
`bag` (the element); the model reproduces this by testing
`PyVal.pylist container`. -/
def multiBagLoad (load : String → Mat) (container : List PyVal) :
    Except String (List Mat) :=
  container.mapM (fun bag =>
    if bag.isStr then
      match bag with
      | .str s => Except.ok (load s)
      | _ => Except.error "unreachable"
    else if (PyVal.pylist container).isNdarray then Except.ok bag.matOf
    else if (PyVal.pylist container).isTensor then Except.ok bag.matOf
    else Except.error ("Invalid bag type: " ++ bag.pyTypeName))

/-- Model of `MultiBagDataset.__getitem__` for the `bag_size is None` configuration:
asserts `len(self.bags[index]) == self.n_bags`, loads each bag, and
returns `[(bag, len(bag)) for bag in loaded_bags]`.  Construction of the
dataclass itself performs no loading or type check (it only stores
`bags`, `n_bags`, `bag_size`), so any failure surfaces here, at item
access. -/
def multiBagGetItem (load : String → Mat) (bags : List (List PyVal))
    (n_bags : ℕ) (index : ℕ) : Except String (List (Mat × ℕ)) :=
  let container := bags.getD index []
  if container.length = n_bags then
    (multiBagLoad load container).map (fun ms => ms.map (fun m => (m, m.length)))
  else
    Except.error "AssertionError"

/-! ### `DatasetFeatures.stats` (src/slideflow/model/features.py, lines 900-943) -/

/-- Slide-level summary of one slide's activations under
the threshold method (features.py lines 905-908):
`act_sum = np.sum((self.activations[slide] > threshold), axis=0)` followed
by `summarized = act_sum / self.activations[slide].shape[-1]`.
`acts` has one row per tile; `shape[-1]` is the row width (the number of
features). -/
def thresholdSummary (acts : Mat) (threshold : ℚ) : List ℚ :=
  let numFeatures := (acts.headD []).length
  (List.range numFeatures).map (fun f =>
    (((acts.filter (fun row => threshold < row.getD f 0)).length : ℚ) /
      (numFeatures : ℚ)))

/-- Modelled from the spec: the slide-level threshold summary as the
spec (and the docstring of the method) describes it — the count of tiles
whose activation exceeds the threshold divided by the total number of
tiles in the slide. -/
def thresholdSummarySpec (acts : Mat) (threshold : ℚ) : List ℚ :=
  let numFeatures := (acts.headD []).length
  (List.range numFeatures).map (fun f =>
    (((acts.filter (fun row => threshold < row.getD f 0)).length : ℚ) /
      (acts.length : ℚ)))

/-- A scipy floating-point result: NaN, +infinity, or a finite value. -/
inductive SciF where
  | nan
  | inf
  | val (q : ℚ)
deriving DecidableEq

/-- Python `math.isnan`. -/
def SciF.isnan : SciF → Bool
  | .nan => true
  | _ => false

/-- A value that is NaN or infinite. -/
def SciF.nonFinite : SciF → Bool
  | .val _ => false
  | _ => true

/-- Mean of a list of rationals. -/
def qmean (l : List ℚ) : ℚ := l.sum / (l.length : ℚ)

/-- The F statistic of `scipy.stats.f_oneway` on `groups` (one list of
per-category values per category), including scipy's documented
degenerate-input handling: if every value across all groups equals the
first value, the result is NaN (constant-input case); otherwise, if every
group is internally constant, the result is +infinity (zero within-group
variance with differing group means, for which scipy sets
`f = np.inf, prob = 0.0`); otherwise the usual finite ratio
`(ssb / (k - 1)) / (ssw / (n - k))`. -/
def fOnewayF (groups : List (List ℚ)) : SciF :=
  let alldata := groups.flatten
  let allSameConst := alldata.all (fun x => x = alldata.headD 0)
  let allConst := groups.all (fun g => g.all (fun x => x = g.headD 0))
  if allSameConst then .nan
  else if allConst then .inf
  else
    let n : ℚ := alldata.length
    let k : ℚ := groups.length
    let grand := qmean alldata
    let ssb := (groups.map (fun g => (g.length : ℚ) * (qmean g - grand) ^ 2)).sum
    let ssw := (groups.map (fun g => (g.map (fun x => (x - qmean g) ^ 2)).sum)).sum
    .val ((ssb / (k - 1)) / (ssw / (n - k)))

/-- The per-feature ANOVA recording step of `DatasetFeatures.stats`
(features.py lines 925-942): a computed `(fvalue, pvalue)` pair is kept
as-is when `not isnan(fvalue) and not isnan(pvalue)`, and replaced by the
sentinel `(-1, 1)` otherwise. -/
def recordAnova (fvalue pvalue : SciF) : SciF × SciF :=
  if ¬ fvalue.isnan ∧ ¬ pvalue.isnan then (fvalue, pvalue)
  else (SciF.val (-1), SciF.val 1)

/-! ### `MILWidget.predict_slide` / `verify_tile_size`
(src/slideflow/studio/widgets/mil.py, lines 335-363) -/

/-- Tile geometry: `tile_px` and `tile_um`. -/
structure TileSize where
  tile_px : ℕ
  tile_um : ℕ
deriving DecidableEq

/-- A UI toast notification, by icon kind. -/
inductive Toast where
  | error (msg : String)
  | info (title : String)
deriving DecidableEq

/-- Model of `MILWidget.verify_tile_size` (lines 349-363): compares the MIL model's
declared tile px/µm (`self.extractor_params`) against the open slide's
(`viz.wsi`); on mismatch it creates an error toast and returns `False`,
otherwise returns `True` with no toast. -/
def verify_tile_size (mil wsi : TileSize) : Bool × List Toast :=
  if mil.tile_px ≠ wsi.tile_px ∨ mil.tile_um ≠ wsi.tile_um then
    (false, [Toast.error "MIL model tile size does not match the currently loaded slide."])
  else
    (true, [])

/-- Outcome of invoking `MILWidget.predict_slide`: whether the background
prediction thread was started, and the toasts created along the way. -/
structure PredictOutcome where
  started : Bool
  toasts : List Toast
deriving DecidableEq

/-- Model of `MILWidget.predict_slide` (lines 335-347): first calls
`self.verify_tile_size()` and returns immediately when it fails;
otherwise creates the sticky "Generating prediction" toast and starts the
background `_predict_slide` thread. -/
def predict_slide (mil wsi : TileSize) : PredictOutcome :=
  let v := verify_tile_size mil wsi
  if v.1 = false then
    { started := false, toasts := v.2 }
  else
    { started := true, toasts := v.2 ++ [Toast.info "Generating prediction"] }

/-! ### `tfrecord_iterator` (src/slideflow/tfrecord/reader.py, lines 15-114)

A record file is modelled by the list of its records' payload lengths;
record `i` occupies bytes `[recOffset sizes i, recOffset sizes (i+1))`,
each record taking `8 + 4 + length + 4` bytes on disk.  The iterator's
yield is modelled as the list of record indices read, in order. -/

/-- Byte offset of record `i` in a record file whose payload lengths are
`sizes` (8-byte length header + two 4-byte CRCs + payload per record). -/
def recOffset (sizes : List ℕ) (i : ℕ) : ℕ :=
  ((sizes.take i).map (fun L => 16 + L)).sum

/-- Python `os.path.getsize(data_path)` for the modelled file. -/
def fileSize (sizes : List ℕ) : ℕ := recOffset sizes sizes.length

/-- The inner `read_records(start_offset, end_offset)` generator: seeks to
`start_offset` (always a record boundary in every call site) and yields
whole records while the file position is below `end_offset`
(`None` meaning the file size).  Yields the records whose byte offset lies
in `[start, end)`. -/
def read_records (sizes : List ℕ) (start : ℕ) (endOff : Option ℕ) : List ℕ :=
  let e := endOff.getD (fileSize sizes)
  (List.range sizes.length).filter
    (fun i => start ≤ recOffset sizes i && recOffset sizes i < e)

/-- Chunk sizes of `np.array_split` for a sequence of length `len` into
`n` parts: `len % n` chunks of size `len / n + 1` first, then chunks of
size `len / n`. -/
def splitSizes (len n : ℕ) : List ℕ :=
  (List.range n).map (fun i => if i < len % n then len / n + 1 else len / n)

/-- Cut a list into consecutive chunks of the given sizes. -/
def takeChunks : List ℕ → List ℕ → List (List ℕ)
  | [], _ => []
  | s :: ss, l => l.take s :: takeChunks ss (l.drop s)

/-- Model of `np.array_split(l, n)`: split `l` into `n` near-equal contiguous
chunks (the leading `len % n` chunks one element longer). -/
def arraySplit (l : List ℕ) (n : ℕ) : List (List ℕ) :=
  takeChunks (splitSizes l.length n) l

/-- The well-formed index of a record file: one row per record, first
column = the record's byte offset (reader.py consumes only that column). -/
def wfIndex (sizes : List ℕ) : List ℕ :=
  (List.range sizes.length).map (recOffset sizes)

/-- The `shard is not None` branch of `tfrecord_iterator` (reader.py lines
107-113): `np.array_split` the (clipped) index into `shard_count`
chunks, start at `all_shard_indices[shard_idx][0]`, and end at the next
chunk's first offset — or at the clip boundary / file end for the last
shard.  Accessing a missing or empty chunk is an `IndexError`. -/
def shard_read (sizes : List ℕ) (idx : List ℕ) (clip_offset : Option ℕ)
    (shard_idx shard_count : ℕ) : Except String (List ℕ) :=
  let chunks := arraySplit idx shard_count
  if shard_idx < chunks.length then
    match (chunks.getD shard_idx [])[0]? with
    | none => .error "IndexError: empty shard"
    | some start_byte =>
      if shard_idx < shard_count - 1 then
        match (chunks.getD (shard_idx + 1) [])[0]? with
        | none => .error "IndexError: empty shard"
        | some end_byte => .ok (read_records sizes start_byte (some end_byte))
      else
        .ok (read_records sizes start_byte clip_offset)
  else .error "IndexError: shard index out of range"

/-- Model of `tfrecord_iterator` for the non-`random_start` paths (reader.py lines
89-114), over a file modelled by `sizes` and an `index` of byte offsets.
Handles `clip` exactly as the source (`if clip:` is false for `0`;
`clip == len(index)` keeps `clip_offset = None`; otherwise
`clip_offset = index[clip]`, an `IndexError` when out of range) and
`shard` exactly as the source (`np.array_split` of the clipped index;
`all_shard_indices[shard_idx][0]` and, below the last shard, the next
chunk's first offset — an `IndexError` when the accessed chunk is absent
or empty).  Returns the list of record indices yielded. -/
def tfrecord_iterator (sizes : List ℕ) (index : List ℕ)
    (shard : Option (ℕ × ℕ)) (clip : Option ℕ) : Except String (List ℕ) :=
  let clipped : Except String (Option ℕ × List ℕ) :=
    match clip with
    | none => .ok (none, index)
    | some c =>
      if c = 0 then .ok (none, index)
      else if c = index.length then .ok (none, index.take c)
      else
        match index[c]? with
        | some off => .ok (some off, index.take c)
        | none => .error "IndexError: index out of range"
  match clipped with
  | .error e => .error e
  | .ok (clip_offset, idx) =>
    match shard with
    | none => .ok (read_records sizes 0 clip_offset)
    | some (shard_idx, shard_count) =>
      shard_read sizes idx clip_offset shard_idx shard_count

/-- The list a successful iteration yielded (`[]` on error; every use is
guarded by a separately proved success conjunct). -/
def okList (e : Except String (List ℕ)) : List ℕ := e.toOption.getD []

/-! ### `create_search_space` (src/slideflow/util/smac_utils.py, lines 62-191) -/

/-- A ConfigSpace hyperparameter value: an int or a string (the
`tile_um` parameter may mix both). -/
abbrev HPVal := ℤ ⊕ String

/-- A declared hyperparameter of a configuration space. -/
inductive HP where
  | ordinal (nm : String) (vals : List ℤ)
  | categorical (nm : String) (vals : List HPVal)
  | ufloat (nm : String) (lo hi : ℚ) (logScale : Bool)
  | uint (nm : String) (lo hi : ℤ) (logScale : Bool)

/-- The name of a hyperparameter. -/
def HP.name : HP → String
  | .ordinal nm _ => nm
  | .categorical nm _ => nm
  | .ufloat nm _ _ _ => nm
  | .uint nm _ _ _ => nm

/-- An inter-parameter sampling condition: `NotEqualsCondition` activates
the child when the parent's value differs from `v`; `LessThanCondition`
activates the child when the parent's value is below `v`. -/
inductive SpaceCond where
  | notEquals (child parent : String) (v : ℤ)
  | lessThan (child parent : String) (v : ℚ)

/-- The conditioned (child) parameter of a condition. -/
def SpaceCond.child : SpaceCond → String
  | .notEquals c _ _ => c
  | .lessThan c _ _ => c

/-- Whether the condition's activation predicate holds for a configuration
assigning numeric value `ν p` to each parent parameter `p`. -/
def SpaceCond.holds (ν : String → ℚ) : SpaceCond → Prop
  | .notEquals _ p v => ν p ≠ (v : ℚ)
  | .lessThan _ p v => ν p < v

instance (ν : String → ℚ) (c : SpaceCond) : Decidable (c.holds ν) := by
  cases c <;> simp only [SpaceCond.holds] <;> infer_instance

/-- A configuration space: named typed parameters plus conditions. -/
structure ConfigSpace where
  params : List HP
  conds : List SpaceCond

/-- The parameter names present in a configuration space. -/
def ConfigSpace.names (cs : ConfigSpace) : List String :=
  cs.params.map HP.name

/-- A parameter is sampled (active) in a configuration exactly when every
condition naming it as child holds of the configuration's parent
values. -/
def ConfigSpace.active (cs : ConfigSpace) (ν : String → ℚ) (nm : String) : Prop :=
  ∀ c ∈ cs.conds, c.child = nm → c.holds ν

instance (cs : ConfigSpace) (ν : String → ℚ) (nm : String) :
    Decidable (cs.active ν nm) := by
  unfold ConfigSpace.active; infer_instance

/-- Python `sorted` on a list of ints. -/
def sortedInt (l : List ℤ) : List ℤ :=
  l.mergeSort (fun a b => decide (a ≤ b))

/-- The keyword arguments of `create_search_space`, each `none` when not
supplied (matching the Python defaults). -/
structure SearchSpaceArgs where
  tile_px : Option (List ℤ) := none
  tile_um : Option (List HPVal) := none
  augment : Option (List String) := none
  normalizer : Option (List String) := none
  normalizer_source : Option (List String) := none
  model : Option (List String) := none
  batch_size : Option (List ℤ) := none
  dropout : Option (ℚ × ℚ) := none
  l1 : Option (ℚ × ℚ) := none
  l2 : Option (ℚ × ℚ) := none
  l1_dense : Option (ℚ × ℚ) := none
  l2_dense : Option (ℚ × ℚ) := none
  learning_rate : Option (ℚ × ℚ) := none
  learning_rate_decay : Option (ℚ × ℚ) := none
  learning_rate_decay_steps : Option (ℤ × ℤ) := none
  hidden_layers : Option (List ℤ) := none
  hidden_layer_width : Option (List ℤ) := none
  pooling : Option (List String) := none
  trainable_layers : Option (ℤ × ℤ) := none
  early_stop : Bool := false

/-- Model of `if x is not None: cs.add_hyperparameter(f(x))` — the one-parameter
building block of `create_search_space`. -/
def optParam {α : Type} (o : Option α) (f : α → HP) : List HP :=
  match o with
  | some x => [f x]
  | none => []

/-- Model of the guarded `cs.add_condition(c)` call — the condition
building block of `create_search_space`. -/
def condIf (b : Bool) (c : SpaceCond) : List SpaceCond :=
  if b then [c] else []

/-- Model of `create_search_space` (smac_utils.py lines 62-191): adds each supplied
hyperparameter in source order (ordinals sorted; `tile_um` ordinal when
all-numeric, else categorical; `learning_rate` and
`learning_rate_decay_steps` log-scaled), then the four inter-parameter
conditions.  The `early_stop` hyperparameter object (line 175) is
constructed but never added to the space, so no `early_stop` parameter is
ever emitted. -/
def create_search_space (a : SearchSpaceArgs) : ConfigSpace :=
  let params : List HP :=
    optParam a.tile_px (fun l => HP.ordinal "tile_px" (sortedInt l)) ++
    optParam a.tile_um (fun l =>
      if l.all (fun v => v.isLeft) then
        HP.ordinal "tile_um" (sortedInt (l.filterMap (fun v => v.getLeft?)))
      else
        HP.categorical "tile_um" l) ++
    optParam a.augment (fun l => HP.categorical "augment" (l.map Sum.inr)) ++
    optParam a.normalizer (fun l => HP.categorical "normalizer" (l.map Sum.inr)) ++
    optParam a.normalizer_source
      (fun l => HP.categorical "normalizer_source" (l.map Sum.inr)) ++
    optParam a.model (fun l => HP.categorical "model" (l.map Sum.inr)) ++
    optParam a.batch_size (fun l => HP.ordinal "batch_size" (sortedInt l)) ++
    optParam a.dropout (fun p => HP.ufloat "dropout" p.1 p.2 false) ++
    optParam a.l1 (fun p => HP.ufloat "l1" p.1 p.2 false) ++
    optParam a.l2 (fun p => HP.ufloat "l2" p.1 p.2 false) ++
    optParam a.l1_dense (fun p => HP.ufloat "l1_dense" p.1 p.2 false) ++
    optParam a.l2_dense (fun p => HP.ufloat "l2_dense" p.1 p.2 false) ++
    optParam a.learning_rate (fun p => HP.ufloat "learning_rate" p.1 p.2 true) ++
    optParam a.learning_rate_decay
      (fun p => HP.ufloat "learning_rate_decay" p.1 p.2 false) ++
    optParam a.learning_rate_decay_steps
      (fun p => HP.uint "learning_rate_decay_steps" p.1 p.2 true) ++
    optParam a.hidden_layers (fun l => HP.ordinal "hidden_layers" (sortedInt l)) ++
    optParam a.hidden_layer_width
      (fun l => HP.ordinal "hidden_layer_width" (sortedInt l)) ++
    optParam a.pooling (fun l => HP.categorical "pooling" (l.map Sum.inr)) ++
    optParam a.trainable_layers (fun p => HP.uint "trainable_layers" p.1 p.2 false)
  let conds : List SpaceCond :=
    condIf (a.hidden_layers.isSome && a.hidden_layer_width.isSome)
      (SpaceCond.notEquals "hidden_layer_width" "hidden_layers" 0) ++
    condIf (a.learning_rate_decay.isSome && a.learning_rate_decay_steps.isSome)
      (SpaceCond.lessThan "learning_rate_decay_steps" "learning_rate_decay" 1) ++
    condIf (a.hidden_layers.isSome && a.l1_dense.isSome)
      (SpaceCond.notEquals "l1_dense" "hidden_layers" 0) ++
    condIf (a.hidden_layers.isSome && a.l2_dense.isSome)
      (SpaceCond.notEquals "l2_dense" "hidden_layers" 0)
  { params := params, conds := conds }

/-- Model of `broad_search_space` (smac_utils.py lines 10-39): forwards its curated
defaults to `create_search_space`. -/
def broad_search_space : ConfigSpace :=
  create_search_space
    { batch_size := some [8, 16, 32, 64]
      dropout := some (0, 1/2)
      l1 := some (0, 1/2)
      l2 := some (0, 1/2)
      l1_dense := some (0, 1/2)
      l2_dense := some (0, 1/2)
      learning_rate := some (1/100000, 1/1000)
      learning_rate_decay := some (19/20, 1)
      learning_rate_decay_steps := some (128, 1024)
      hidden_layers := some [0, 1, 2, 3]
      hidden_layer_width := some [64, 128, 256, 512] }

/-- Model of `shallow_search_space` (smac_utils.py lines 41-60): forwards its
curated defaults to `create_search_space`. -/
def shallow_search_space : ConfigSpace :=
  create_search_space
    { batch_size := some [8, 16, 32, 64]
      dropout := some (0, 3/10)
      l2 := some (0, 3/10)
      l2_dense := some (0, 3/10)
      learning_rate := some (1/20000, 1/2000)
      hidden_layers := some [0, 1, 2] }

/-! ### `get_hp_from_row` boolean coercion
(src/source/slideflow/model/utils.py, lines 80-111) -/

/-- Python `value.lower()` for ASCII text: lowercase every character. -/
def strLower (s : String) : String := String.mk (s.data.map Char.toLower)

/-- The cell of `row` belonging to column `arg` of `header`
(`value = row[header.index(arg)]`; `get_hp_from_row` only looks up
columns drawn from the header). -/
def rowCell (header row : List String) (arg : String) : String :=
  row.getD (header.indexOf arg) ""

/-- The boolean coercion branch of `get_hp_from_row` (utils.py lines
94-101): a boolean-typed field's cell parses to `True` when its lowercased
value is one of `true/yes/y/t`, to `False` for `false/no/n/f`, and raises
`ValueError` naming the offending value and field otherwise. -/
def parse_bool_cell (value arg : String) : Except String Bool :=
  if strLower value ∈ ["true", "yes", "y", "t"] then
    .ok true
  else if strLower value ∈ ["false", "no", "n", "f"] then
    .ok false
  else
    .error ("Unable to parse \"" ++ value ++ "\" for batch file argument \""
      ++ arg ++ "\" into a bool.")

/-- Model of `get_hp_from_row` restricted to one boolean-typed column `arg`: the
effect of lines 89-101 on that column is to coerce its cell via the
recognized-word sets. -/
def get_hp_bool_field (header row : List String) (arg : String) :
    Except String Bool :=
  parse_bool_cell (rowCell header row arg) arg

deriving instance DecidableEq for Except

/-! ## Theorems -/

/-- Membership in an `optParam` block. -/
theorem mem_optParam {α : Type} (o : Option α) (f : α → HP) (hp : HP) :
    hp ∈ optParam o f ↔ ∃ x, o = some x ∧ hp = f x := by
  cases o <;> simp [optParam]

/-- Membership in a `condIf` block. -/
theorem mem_condIf (b : Bool) (c d : SpaceCond) :
    c ∈ condIf b d ↔ b = true ∧ c = d := by
  cases b <;> simp [condIf]


/-- C2: evaluation of the `dim > 2` path of `_to_fixed_size_bag` at the
bag `[[[[1,3],[5,7]]]]` (shape [1,1,2,2]) with `bag_size = 1` and the
identity permutation: the source's `bag_samples = bag[bag_idxs]` (line
106) yields the unreduced 4-D instance, while the averaged 2-D reduction
`bag_flattened` computed on line 101 — from which the spec says the
result is built — has the single row `[4]`.  The sampled data is taken
from the raw tensor, not from the reduction. -/
theorem fixed_size_bag_highdim_eval :
    fixed_size_samples_4d [0] [[[[1, 3], [5, 7]]]] 1 = [[[[1, 3], [5, 7]]]] ∧
    mean_last_two [[[[1, 3], [5, 7]]]] = [[4]] ∧
    fixed_size_samples_spec [0] [[[[1, 3], [5, 7]]]] 1 = [[4]] := by
  refine ⟨by decide, ?_, ?_⟩ <;> norm_num [fixed_size_samples_spec, mean_last_two]

/-- C3: evaluation of the threshold-method aggregation at a slide with
2 tiles and 4 features, all activations 1 and threshold 1/2.  The source
divides the per-feature count of above-threshold tiles (2) by
`shape[-1]`, the number of features (4), giving 1/2 per feature; the
docstring and the spec prescribe division by the number of tiles (2),
giving 1. -/
theorem threshold_divides_by_num_features :
    thresholdSummary [[1, 1, 1, 1], [1, 1, 1, 1]] (1/2) = [1/2, 1/2, 1/2, 1/2] ∧
    thresholdSummarySpec [[1, 1, 1, 1], [1, 1, 1, 1]] (1/2) = [1, 1, 1, 1] ∧
    thresholdSummary [[1, 1, 1, 1], [1, 1, 1, 1]] (1/2) ≠
      thresholdSummarySpec [[1, 1, 1, 1], [1, 1, 1, 1]] (1/2) := by
  refine ⟨?_, ?_, ?_⟩ <;>
    norm_num [thresholdSummary, thresholdSummarySpec, List.range_succ, List.filter]

/-- C4 counterexample: with a model declaring tile_px 299 / tile_um 302
and a slide loaded at tile_px 512 / tile_um 400, `predict_slide` does
not initiate the prediction (no background thread is started); it runs
`verify_tile_size` itself and stops at the mismatch, contradicting the
claim that the prediction starts even when the tile sizes differ. -/
theorem predict_slide_mismatch_counterexample :
    (predict_slide ⟨299, 302⟩ ⟨512, 400⟩).started = false ∧
    (⟨299, 302⟩ : TileSize) ≠ (⟨512, 400⟩ : TileSize) ∧
    (predict_slide ⟨299, 302⟩ ⟨512, 400⟩).toasts =
      [Toast.error "MIL model tile size does not match the currently loaded slide."] := by
  decide

/-- C4 amended: `predict_slide` itself invokes `verify_tile_size` before
doing anything else; the prediction thread is started iff the model's
declared tile px/µm both equal the open slide's, and on mismatch the only
effect is `verify_tile_size`'s error toast. -/
theorem predict_slide_verifies_first (mil wsi : TileSize) :
    ((predict_slide mil wsi).started = true ↔
      (mil.tile_px = wsi.tile_px ∧ mil.tile_um = wsi.tile_um)) ∧
    ((predict_slide mil wsi).started = false →
      (predict_slide mil wsi).toasts =
        [Toast.error "MIL model tile size does not match the currently loaded slide."]) := by
  unfold predict_slide verify_tile_size
  by_cases h : mil.tile_px ≠ wsi.tile_px ∨ mil.tile_um ≠ wsi.tile_um
  · simp [h]
    tauto
  · push_neg at h
    simp [h.1, h.2]

/-- C4 amended, witness: matching tile sizes start the prediction;
mismatching ones leave only the error toast. -/
theorem predict_slide_verifies_first_witness :
    (predict_slide ⟨299, 10⟩ ⟨299, 10⟩).started = true ∧
    (predict_slide ⟨299, 10⟩ ⟨512, 10⟩).toasts =
      [Toast.error "MIL model tile size does not match the currently loaded slide."] :=
  ⟨(predict_slide_verifies_first ⟨299, 10⟩ ⟨299, 10⟩).1.mpr ⟨rfl, rfl⟩,
   (predict_slide_verifies_first ⟨299, 10⟩ ⟨512, 10⟩).2 (by decide)⟩

/-- C6: evaluation of `MultiBagDataset.__getitem__` with `n_bags = 1`.  A
bag element that is a numpy array — or a torch tensor — inside the
per-slide list raises `ValueError("Invalid bag type: ...")`, because the
source's `elif` checks test the container `self.bags[index]` (a list)
instead of the element; only file-path elements load.  This contradicts
the claim that array and tensor elements load successfully. -/
theorem multibag_invalid_type_eval :
    multiBagGetItem (fun _ => [[3]]) [[PyVal.ndarray [[1]]]] 1 0 =
      Except.error "Invalid bag type: <class 'numpy.ndarray'>" ∧
    multiBagGetItem (fun _ => [[3]]) [[PyVal.tensor [[2]]]] 1 0 =
      Except.error "Invalid bag type: <class 'torch.Tensor'>" ∧
    multiBagGetItem (fun _ => [[3]]) [[PyVal.str "a.pt"]] 1 0 =
      Except.ok [([[3]], 1)] := by
  decide

/-- C7 counterexample: groups whose per-category values are constant
within each category but differ across categories give an infinite ANOVA
F statistic (scipy's documented degenerate result `(inf, 0.0)`).  That
result is non-finite, yet the recording step keeps it as-is — the
`isnan` test does not catch infinity — so it is not recorded as the
sentinel `(-1, 1)`. -/
theorem anova_sentinel_counterexample :
    fOnewayF [[0, 0], [1, 1]] = SciF.inf ∧
    SciF.nonFinite SciF.inf = true ∧
    recordAnova SciF.inf (SciF.val 0) = (SciF.inf, SciF.val 0) ∧
    recordAnova SciF.inf (SciF.val 0) ≠ (SciF.val (-1), SciF.val 1) := by
  decide

/-- C7 amended: every ANOVA result with a NaN F- or P-value is recorded
as the sentinel pair F = -1, P = 1 — in particular the constant-input
case, where all per-category values are identical, for which scipy
returns `(nan, nan)`. -/
theorem anova_sentinel_amended :
    (∀ fvalue pvalue : SciF, (fvalue.isnan || pvalue.isnan) = true →
      recordAnova fvalue pvalue = (SciF.val (-1), SciF.val 1)) ∧
    (∀ groups : List (List ℚ),
      groups.flatten.all (fun x => x = groups.flatten.headD 0) = true →
      recordAnova (fOnewayF groups) SciF.nan = (SciF.val (-1), SciF.val 1)) := by
  constructor
  · intro fvalue pvalue h
    cases fvalue <;> cases pvalue <;> simp_all [recordAnova, SciF.isnan]
  · intro groups h
    have hf : fOnewayF groups = SciF.nan := by
      unfold fOnewayF
      rw [if_pos h]
    rw [hf]
    decide

/-- C7 amended, witness: NaN results, and the all-identical constant
input, produce the sentinel. -/
theorem anova_sentinel_witness :
    recordAnova SciF.nan (SciF.val 0) = (SciF.val (-1), SciF.val 1) ∧
    recordAnova (fOnewayF [[2, 2], [2, 2]]) SciF.nan = (SciF.val (-1), SciF.val 1) :=
  ⟨anova_sentinel_amended.1 SciF.nan (SciF.val 0) (by decide),
   anova_sentinel_amended.2 [[2, 2], [2, 2]] (by decide)⟩

/-- C9: the `get_hp_from_row`'s boolean coercion.  For any batch-file row and
boolean-typed column, the cell parses to true when its lowercased value
is one of true/yes/y/t, to false for false/no/n/f, and any other value
raises a parse error whose message names the offending value and the
field. -/
theorem batch_bool_coercion (header row : List String) (arg : String) :
    (strLower (rowCell header row arg) ∈ ["true", "yes", "y", "t"] →
      get_hp_bool_field header row arg = Except.ok true) ∧
    (strLower (rowCell header row arg) ∈ ["false", "no", "n", "f"] →
      get_hp_bool_field header row arg = Except.ok false) ∧
    (strLower (rowCell header row arg) ∉ ["true", "yes", "y", "t"] →
      strLower (rowCell header row arg) ∉ ["false", "no", "n", "f"] →
      get_hp_bool_field header row arg =
        Except.error ("Unable to parse \"" ++ rowCell header row arg ++
          "\" for batch file argument \"" ++ arg ++ "\" into a bool.")) := by
  unfold get_hp_bool_field parse_bool_cell
  refine ⟨fun h => by simp [h], fun h => ?_, fun h1 h2 => by simp [h1, h2]⟩
  have hnt : strLower (rowCell header row arg) ∉ ["true", "yes", "y", "t"] := by
    simp only [List.mem_cons, List.not_mem_nil, or_false] at h ⊢
    rcases h with h | h | h | h <;> rw [h] <;> decide
  simp [hnt, h]

/-- C9 witness: "Yes" coerces to true, "no" to false, and "maybe" raises
the parse error naming value and field. -/
theorem batch_bool_coercion_witness :
    get_hp_bool_field ["model_name", "toplayer"] ["m1", "Yes"] "toplayer" =
      Except.ok true ∧
    get_hp_bool_field ["model_name", "toplayer"] ["m1", "no"] "toplayer" =
      Except.ok false ∧
    get_hp_bool_field ["model_name", "toplayer"] ["m1", "maybe"] "toplayer" =
      Except.error "Unable to parse \"maybe\" for batch file argument \"toplayer\" into a bool." :=
  ⟨(batch_bool_coercion ["model_name", "toplayer"] ["m1", "Yes"] "toplayer").1 (by decide),
   (batch_bool_coercion ["model_name", "toplayer"] ["m1", "no"] "toplayer").2.1 (by decide),
   (batch_bool_coercion ["model_name", "toplayer"] ["m1", "maybe"] "toplayer").2.2
      (by decide) (by decide)⟩

/-- A name absent from every hyperparameter an `optParam` block can emit
is absent from the block's name list. -/
theorem not_mem_names_optParam {α : Type} (nm : String) (o : Option α)
    (f : α → HP) (hf : ∀ x, (f x).name ≠ nm) :
    nm ∉ (optParam o f).map HP.name := by
  cases o with
  | none => simp [optParam]
  | some x => simpa [optParam] using (hf x).symm

/-- C10: no configuration space built by `create_search_space` contains a
parameter named `early_stop`. -/
theorem early_stop_never_added :
    (∀ a : SearchSpaceArgs, "early_stop" ∉ (create_search_space a).names) ∧
    "early_stop" ∉ broad_search_space.names ∧
    "early_stop" ∉ shallow_search_space.names := by
  have h : ∀ a : SearchSpaceArgs, "early_stop" ∉ (create_search_space a).names := by
    intro a
    simp only [ConfigSpace.names, create_search_space, List.map_append,
      List.mem_append, not_or]
    repeat' apply And.intro
    all_goals
      apply not_mem_names_optParam
      intro x
      first
        | (split <;> simp [HP.name])
        | simp [HP.name]
  exact ⟨h, h _, h _⟩

/-- Any member of a `condIf` block is its condition. -/
theorem mem_condIf_eq (b : Bool) (c d : SpaceCond) (h : c ∈ condIf b d) : c = d := by
  cases b
  · simp [condIf] at h
  · simpa [condIf] using h

/-- C8: conditioning invariant of `create_search_space`.  With both
`hidden_layers` and `hidden_layer_width` supplied, the space contains
`hidden_layer_width`, which is never sampled in a configuration whose
`hidden_layers` value is 0 and is eligible in every other configuration;
when supplied, `l1_dense` and `l2_dense` are likewise inactive at
`hidden_layers = 0`, and `learning_rate_decay_steps` is inactive whenever
`learning_rate_decay` is not below 1. -/
theorem search_space_conditioning (a : SearchSpaceArgs) (hls ws : List ℤ)
    (h1 : a.hidden_layers = some hls) (h2 : a.hidden_layer_width = some ws) :
    "hidden_layer_width" ∈ (create_search_space a).names ∧
    (∀ ν : String → ℚ, ν "hidden_layers" = 0 →
      ¬ (create_search_space a).active ν "hidden_layer_width") ∧
    (∀ ν : String → ℚ, ν "hidden_layers" ≠ 0 →
      (create_search_space a).active ν "hidden_layer_width") ∧
    (a.l1_dense.isSome = true → ∀ ν : String → ℚ, ν "hidden_layers" = 0 →
      ¬ (create_search_space a).active ν "l1_dense") ∧
    (a.l2_dense.isSome = true → ∀ ν : String → ℚ, ν "hidden_layers" = 0 →
      ¬ (create_search_space a).active ν "l2_dense") ∧
    (a.learning_rate_decay.isSome = true → a.learning_rate_decay_steps.isSome = true →
      ∀ ν : String → ℚ, ¬ (ν "learning_rate_decay" < 1) →
      ¬ (create_search_space a).active ν "learning_rate_decay_steps") := by
  have hcw : SpaceCond.notEquals "hidden_layer_width" "hidden_layers" 0 ∈
      (create_search_space a).conds := by
    simp [create_search_space, mem_condIf, h1, h2]
  refine ⟨?_, ?_, ?_, ?_, ?_, ?_⟩
  · simp [ConfigSpace.names, create_search_space, mem_optParam, HP.name, h2]
  · intro ν hν hact
    have := hact _ hcw rfl
    simp [SpaceCond.holds, hν] at this
  · intro ν hν c hc hchild
    simp only [create_search_space, List.mem_append, mem_condIf] at hc
    rcases hc with ((⟨hb, rfl⟩ | ⟨hb, rfl⟩) | ⟨hb, rfl⟩) | ⟨hb, rfl⟩ <;>
      simp_all [SpaceCond.child, SpaceCond.holds]
  · intro hd ν hν hact
    have hc : SpaceCond.notEquals "l1_dense" "hidden_layers" 0 ∈
        (create_search_space a).conds := by
      simp [create_search_space, mem_condIf, h1, hd]
    have := hact _ hc rfl
    simp [SpaceCond.holds, hν] at this
  · intro hd ν hν hact
    have hc : SpaceCond.notEquals "l2_dense" "hidden_layers" 0 ∈
        (create_search_space a).conds := by
      simp [create_search_space, mem_condIf, h1, hd]
    have := hact _ hc rfl
    simp [SpaceCond.holds, hν] at this
  · intro hd hs ν hν hact
    have hc : SpaceCond.lessThan "learning_rate_decay_steps" "learning_rate_decay" 1 ∈
        (create_search_space a).conds := by
      simp [create_search_space, mem_condIf, hd, hs]
    have := hact _ hc rfl
    simp [SpaceCond.holds] at this
    exact hν this

/-- C8 witness: the invariant at the spec's example space
(`hidden_layers = [0,1,2]`, `hidden_layer_width = [64,128]`), evaluated
at the all-zero and all-one configurations. -/
theorem search_space_conditioning_witness :
    "hidden_layer_width" ∈ (create_search_space
      { hidden_layers := some [0, 1, 2],
        hidden_layer_width := some [64, 128] }).names ∧
    ¬ (create_search_space
      { hidden_layers := some [0, 1, 2],
        hidden_layer_width := some [64, 128] }).active (fun _ => 0) "hidden_layer_width" ∧
    (create_search_space
      { hidden_layers := some [0, 1, 2],
        hidden_layer_width := some [64, 128] }).active (fun _ => 1) "hidden_layer_width" :=
  ⟨(search_space_conditioning _ [0, 1, 2] [64, 128] rfl rfl).1,
   (search_space_conditioning _ [0, 1, 2] [64, 128] rfl rfl).2.1 (fun _ => 0) rfl,
   (search_space_conditioning _ [0, 1, 2] [64, 128] rfl rfl).2.2.1 (fun _ => 1) (by norm_num)⟩

/-- C1: the fixed-size bag invariant for 2-D bags.  For any bag of shape
[N, F], any target size S and any permutation of the row indices, the
padded bag has exactly S rows; the effective length is S when N ≥ S and
N when N < S; in the latter case rows N..S-1 are exactly zero vectors
and rows 0..N-1 are the bag's rows at distinct (without-replacement)
indices. -/
theorem fixed_size_bag_invariant (perm : List ℕ) (F N S : ℕ) (bag : Mat)
    (hN : bag.length = N) (hperm : perm.Perm (List.range N))
    (hF : ∀ row ∈ bag, row.length = F) :
    (to_fixed_size_bag perm F bag S).1.length = S ∧
    (N ≥ S → (to_fixed_size_bag perm F bag S).2 = S) ∧
    (N < S → (to_fixed_size_bag perm F bag S).2 = N ∧
      (to_fixed_size_bag perm F bag S).1.drop N =
        List.replicate (S - N) (List.replicate F 0) ∧
      ∃ idxs : List ℕ, idxs.Nodup ∧ (∀ i ∈ idxs, i < N) ∧
        (to_fixed_size_bag perm F bag S).1.take N =
          idxs.map (fun i => bag.getD i [])) := by
  have hplen : perm.length = N := by
    simpa using hperm.length_eq
  have hsample_len : ((perm.take S).map (fun i => bag.getD i [])).length = min S N := by
    simp [List.length_take, hplen]
  refine ⟨?_, ?_, ?_⟩
  · simp only [to_fixed_size_bag, List.length_append, hsample_len,
      List.length_replicate]
    omega
  · intro h
    simp only [to_fixed_size_bag, hN]
    omega
  · intro h
    have htake : perm.take S = perm := List.take_of_length_le (by omega)
    refine ⟨by simp only [to_fixed_size_bag, hN]; omega, ?_, ?_⟩
    · simp only [to_fixed_size_bag]
      rw [List.drop_append_of_le_length (by omega), List.drop_of_length_le (by omega),
        List.nil_append, hsample_len]
      congr 1
      omega
    · refine ⟨perm, hperm.symm.nodup (List.nodup_range N), ?_, ?_⟩
      · intro i hi
        have := hperm.mem_iff.mp hi
        simpa using this
      · simp only [to_fixed_size_bag]
        rw [List.take_append_of_le_length (by simp [hsample_len]; omega),
          htake]
        rw [List.take_of_length_le (by simp [hplen])]

/-- C1 witness: a bag with N = 2 rows of width 1, target size S = 3 and
permutation [1, 0]. -/
theorem fixed_size_bag_invariant_witness :
    (to_fixed_size_bag [1, 0] 1 [[5], [7]] 3).1.length = 3 ∧
    (2 < 3 → (to_fixed_size_bag [1, 0] 1 [[5], [7]] 3).2 = 2 ∧
      (to_fixed_size_bag [1, 0] 1 [[5], [7]] 3).1.drop 2 =
        List.replicate 1 (List.replicate 1 0) ∧
      ∃ idxs : List ℕ, idxs.Nodup ∧ (∀ i ∈ idxs, i < 2) ∧
        (to_fixed_size_bag [1, 0] 1 [[5], [7]] 3).1.take 2 =
          idxs.map (fun i => [[(5 : ℚ)], [7]].getD i [])) :=
  ⟨(fixed_size_bag_invariant [1, 0] 1 2 3 [[5], [7]] (by decide)
      (by decide) (by decide)).1,
   (fixed_size_bag_invariant [1, 0] 1 2 3 [[5], [7]] (by decide)
      (by decide) (by decide)).2.2⟩

/-! Helper lemmas for the record-reader sharding development. -/

/-- Filtering `range n` by the interval `[a, b)` gives `range' a (min b n - a)`. -/
theorem filter_range_interval (n a b : ℕ) :
    (List.range n).filter (fun i => a ≤ i && i < b) = List.range' a (min b n - a) := by
  induction n with
  | zero => simp
  | succ n ih =>
    rw [List.range_succ, List.filter_append, ih]
    rcases Nat.lt_or_ge n b with hb | hb
    · rcases le_or_lt a n with ha | ha
      · rw [List.filter_cons, if_pos
          (by simp only [Bool.and_eq_true, decide_eq_true_eq]; omega), List.filter_nil]
        have hmin1 : min b n = n := by omega
        have hmin2 : min b (n + 1) = n + 1 := by omega
        rw [hmin1, hmin2,
          show [n] = List.range' (a + (n - a)) 1 by rw [List.range'_one]; congr 1; omega,
          List.range'_append_1]
        congr 1
        omega
      · rw [List.filter_cons, if_neg
          (by simp only [Bool.and_eq_true, decide_eq_true_eq]; omega), List.filter_nil,
          List.append_nil]
        congr 1
        omega
    · rw [List.filter_cons, if_neg
        (by simp only [Bool.and_eq_true, decide_eq_true_eq]; omega), List.filter_nil,
        List.append_nil]
      congr 1
      omega

/-- The byte offset of record 0 is 0. -/
theorem recOffset_zero (sizes : List ℕ) : recOffset sizes 0 = 0 := by
  simp [recOffset]

/-- Offset recurrence: each record advances the offset by its on-disk size. -/
theorem recOffset_succ (sizes : List ℕ) (i : ℕ) (h : i < sizes.length) :
    recOffset sizes (i + 1) = recOffset sizes i + (16 + sizes.getD i 0) := by
  unfold recOffset
  rw [List.take_succ, List.map_append, List.sum_append]
  congr 1
  rw [List.getElem?_eq_getElem h]
  simp [List.getD_eq_getElem?_getD, List.getElem?_eq_getElem h]

/-- Offsets never decrease with the record number. -/
theorem recOffset_le_succ (sizes : List ℕ) (k : ℕ) :
    recOffset sizes k ≤ recOffset sizes (k + 1) := by
  by_cases h : k < sizes.length
  · rw [recOffset_succ sizes k h]
    omega
  · push_neg at h
    unfold recOffset
    rw [List.take_of_length_le h, List.take_of_length_le (by omega)]

/-- Offsets are monotone in the record number. -/
theorem recOffset_mono (sizes : List ℕ) : Monotone (recOffset sizes) :=
  monotone_nat_of_le_succ (recOffset_le_succ sizes)

/-- Offsets are strictly monotone below the record count. -/
theorem recOffset_lt (sizes : List ℕ) {i j : ℕ} (hij : i < j) (hj : j ≤ sizes.length) :
    recOffset sizes i < recOffset sizes j := by
  have h1 : recOffset sizes i < recOffset sizes (i + 1) := by
    rw [recOffset_succ sizes i (by omega)]
    omega
  exact lt_of_lt_of_le h1 (recOffset_mono sizes hij)

/-- Offset comparison reflects record-number comparison (`≤` form). -/
theorem recOffset_le_iff (sizes : List ℕ) {a i : ℕ} (ha : a ≤ sizes.length)
    (hi : i < sizes.length) :
    (recOffset sizes a ≤ recOffset sizes i) ↔ a ≤ i := by
  constructor
  · intro h
    by_contra hc
    push_neg at hc
    exact absurd h (not_le.mpr (recOffset_lt sizes hc ha))
  · exact fun h => recOffset_mono sizes h

/-- Offset comparison reflects record-number comparison (`<` form). -/
theorem recOffset_lt_iff (sizes : List ℕ) {i b : ℕ} (hi : i < sizes.length)
    (hb : b ≤ sizes.length) :
    (recOffset sizes i < recOffset sizes b) ↔ i < b := by
  constructor
  · intro h
    by_contra hc
    push_neg at hc
    exact absurd h (not_lt.mpr (recOffset_mono sizes hc))
  · exact fun h => recOffset_lt sizes h hb

/-- Reading between two record boundaries yields exactly the
records of the boundary interval. -/
theorem read_records_eq (sizes : List ℕ) (a b : ℕ) (hab : a ≤ b)
    (hb : b ≤ sizes.length) :
    read_records sizes (recOffset sizes a) (some (recOffset sizes b)) =
      List.range' a (b - a) := by
  unfold read_records
  simp only [Option.getD_some]
  have hcong : ∀ i ∈ List.range sizes.length,
      (decide (recOffset sizes a ≤ recOffset sizes i) &&
        decide (recOffset sizes i < recOffset sizes b)) =
      (decide (a ≤ i) && decide (i < b)) := by
    intro i hi
    rw [List.mem_range] at hi
    rw [decide_eq_decide.mpr (recOffset_le_iff sizes (le_trans hab hb) hi),
      decide_eq_decide.mpr (recOffset_lt_iff sizes hi hb)]
  rw [List.filter_congr hcong, filter_range_interval]
  congr 1
  omega

/-- Reading with no end offset reads to the file end. -/
theorem read_records_none_eq (sizes : List ℕ) (a : ℕ) (ha : a ≤ sizes.length) :
    read_records sizes (recOffset sizes a) none =
      List.range' a (sizes.length - a) := by
  have : read_records sizes (recOffset sizes a) none =
      read_records sizes (recOffset sizes a) (some (fileSize sizes)) := rfl
  rw [this]
  exact read_records_eq sizes a sizes.length ha le_rfl

/-- Lemma: `takeChunks` produces one chunk per requested size. -/
theorem takeChunks_length (szs : List ℕ) : ∀ l : List ℕ,
    (takeChunks szs l).length = szs.length := by
  induction szs with
  | nil => intro l; simp [takeChunks]
  | cons s ss ih => intro l; simp [takeChunks, ih]

/-- Chunk `i` of `takeChunks` is the slice of the input at the partial
sum of the preceding sizes. -/
theorem takeChunks_getD (szs : List ℕ) : ∀ (l : List ℕ) (i : ℕ),
    (takeChunks szs l).getD i [] =
      (l.drop ((szs.take i).sum)).take (szs.getD i 0) := by
  induction szs with
  | nil =>
    intro l i
    simp [takeChunks]
  | cons s ss ih =>
    intro l i
    cases i with
    | zero => simp [takeChunks]
    | succ i =>
      simp only [takeChunks, List.getD_cons_succ]
      rw [ih (l.drop s) i, List.drop_drop]
      have hsum : ((s :: ss).take (i + 1)).sum = s + (ss.take i).sum := by
        simp [List.take_succ_cons]
      simp [hsum, Nat.add_comm]

/-- The `np.array_split` chunk-size list has length `n`. -/
theorem splitSizes_length (len n : ℕ) : (splitSizes len n).length = n := by
  simp [splitSizes]

/-- The `i`-th `np.array_split` chunk size. -/
theorem splitSizes_getD (len n i : ℕ) (h : i < n) :
    (splitSizes len n).getD i 0 =
      if i < len % n then len / n + 1 else len / n := by
  simp [splitSizes, List.getD_eq_getElem?_getD, List.getElem?_range h]

/-- Splitting at least `n` elements into `n` chunks leaves no chunk empty. -/
theorem splitSizes_pos (len n i : ℕ) (hn : n ≤ len) (hn0 : 0 < n) (h : i < n) :
    0 < (splitSizes len n).getD i 0 := by
  rw [splitSizes_getD len n i h]
  have h1 : 1 ≤ len / n := (Nat.one_le_div_iff hn0).mpr hn
  split <;> omega

/-- The `np.array_split` chunk sizes sum to the input length. -/
theorem splitSizes_sum (len n : ℕ) (hn : 0 < n) : (splitSizes len n).sum = len := by
  unfold splitSizes
  have hr : len % n < n := Nat.mod_lt _ hn
  have hsplit : List.range n =
      List.range' 0 (len % n) ++ List.range' (len % n) (n - len % n) := by
    rw [List.range_eq_range']
    calc List.range' 0 n = List.range' 0 ((n - len % n) + len % n) := by congr 1; omega
      _ = List.range' 0 (len % n) ++ List.range' (0 + len % n) (n - len % n) :=
          (List.range'_append_1 0 (len % n) (n - len % n)).symm
      _ = List.range' 0 (len % n) ++ List.range' (len % n) (n - len % n) := by
          rw [Nat.zero_add]
  rw [hsplit, List.map_append, List.sum_append]
  have h1 : (List.range' 0 (len % n)).map
      (fun i => if i < len % n then len / n + 1 else len / n) =
      List.replicate (len % n) (len / n + 1) := by
    rw [List.map_congr_left (g := fun _ => len / n + 1) ?_]
    · rw [List.map_const', List.length_range']
    · intro i hi
      rw [List.mem_range'_1] at hi
      rw [if_pos (by omega)]
  have h2 : (List.range' (len % n) (n - len % n)).map
      (fun i => if i < len % n then len / n + 1 else len / n) =
      List.replicate (n - len % n) (len / n) := by
    rw [List.map_congr_left (g := fun _ => len / n) ?_]
    · rw [List.map_const', List.length_range']
    · intro i hi
      rw [List.mem_range'_1] at hi
      rw [if_neg (by omega)]
  rw [h1, h2, List.sum_replicate, List.sum_replicate, smul_eq_mul, smul_eq_mul]
  have hdm := Nat.div_add_mod len n
  have hmul : (n - len % n) * (len / n) = n * (len / n) - len % n * (len / n) :=
    Nat.sub_mul _ _ _
  have hle : len % n * (len / n) ≤ n * (len / n) :=
    Nat.mul_le_mul_right _ (le_of_lt hr)
  have hms : len % n * (len / n + 1) = len % n * (len / n) + len % n :=
    Nat.mul_succ _ _
  omega

/-- Partial sums of a list are monotone. -/
theorem sum_take_mono (l : List ℕ) {i j : ℕ} (h : i ≤ j) :
    (l.take i).sum ≤ (l.take j).sum := by
  calc (l.take i).sum = ((l.take j).take i).sum := by
        rw [List.take_take, min_eq_left h]
    _ ≤ (l.take j).sum := by
        conv_rhs => rw [← List.take_append_drop i (l.take j)]
        rw [List.sum_append]
        omega

/-- Partial-sum recurrence. -/
theorem sum_take_succ (l : List ℕ) (i : ℕ) (h : i < l.length) :
    (l.take (i + 1)).sum = (l.take i).sum + l.getD i 0 := by
  rw [List.take_succ, List.sum_append]
  congr 1
  rw [List.getElem?_eq_getElem h]
  simp [List.getD_eq_getElem?_getD, List.getElem?_eq_getElem h]

/-- Concatenating consecutive `range'` blocks cut by a monotone sequence
of positions gives one `range'` block. -/
theorem flatten_consecutive (P : ℕ → ℕ) (hP : Monotone P) :
    ∀ C s : ℕ,
      ((List.range' s C).map (fun i => List.range' (P i) (P (i + 1) - P i))).flatten
        = List.range' (P s) (P (s + C) - P s) := by
  intro C
  induction C with
  | zero => intro s; simp
  | succ C ih =>
    intro s
    rw [List.range'_succ, List.map_cons, List.flatten_cons, ih (s + 1)]
    have h1 : P s ≤ P (s + 1) := hP (by omega)
    have h2 : P (s + 1) ≤ P (s + 1 + C) := hP (by omega)
    calc List.range' (P s) (P (s + 1) - P s) ++
          List.range' (P (s + 1)) (P (s + 1 + C) - P (s + 1))
        = List.range' (P s) (P (s + 1) - P s) ++
          List.range' (P s + (P (s + 1) - P s)) (P (s + 1 + C) - P (s + 1)) := by
          congr 2
          omega
      _ = List.range' (P s) ((P (s + 1 + C) - P (s + 1)) + (P (s + 1) - P s)) :=
          List.range'_append_1 _ _ _
      _ = List.range' (P s) (P (s + (C + 1)) - P s) := by
          have h3 : s + (C + 1) = s + 1 + C := by omega
          rw [h3]
          congr 1
          omega

/-- The records a shard reads: shard `i` of `C` over the index of the
first `m` records yields exactly the chunk `i` consecutive block of
`np.array_split` positions. -/
theorem shard_read_eq (sizes : List ℕ) (m C i : ℕ) (co : Option ℕ)
    (hco : (co = none ∧ m = sizes.length) ∨ co = some (recOffset sizes m))
    (hi : i < C) (hm : C ≤ m) (hmn : m ≤ sizes.length) :
    shard_read sizes ((List.range m).map (recOffset sizes)) co i C =
      Except.ok (List.range' (((splitSizes m C).take i).sum)
        (((splitSizes m C).take (i + 1)).sum - ((splitSizes m C).take i).sum)) := by
  have hC : 0 < C := by omega
  have hlen : ((List.range m).map (recOffset sizes)).length = m := by simp
  have hchunks_len : (arraySplit ((List.range m).map (recOffset sizes)) C).length = C := by
    rw [arraySplit, takeChunks_length, hlen, splitSizes_length]
  have hPsum : ((splitSizes m C).take C).sum = m := by
    rw [List.take_of_length_le (by rw [splitSizes_length]), splitSizes_sum m C hC]
  have hPle : ∀ j, j ≤ C → ((splitSizes m C).take j).sum ≤ m := by
    intro j hj
    exact le_trans (sum_take_mono _ hj) (le_of_eq hPsum)
  have hPlt : ∀ j, j < C → ((splitSizes m C).take j).sum < m := by
    intro j hj
    have hstep : ((splitSizes m C).take (j + 1)).sum =
        ((splitSizes m C).take j).sum + (splitSizes m C).getD j 0 := by
      exact sum_take_succ _ j (by rw [splitSizes_length]; omega)
    have hpos := splitSizes_pos m C j hm hC hj
    have := hPle (j + 1) (by omega)
    omega
  have hhead : ∀ j, j < C →
      ((arraySplit ((List.range m).map (recOffset sizes)) C).getD j [])[0]? =
        some (recOffset sizes (((splitSizes m C).take j).sum)) := by
    intro j hj
    rw [arraySplit, hlen, takeChunks_getD]
    have hpos := splitSizes_pos m C j hm hC hj
    rw [List.getElem?_take, if_pos hpos]
    rw [List.getElem?_drop]
    rw [Nat.add_zero]
    have hjm : ((splitSizes m C).take j).sum < m := hPlt j hj
    rw [List.getElem?_map, List.getElem?_range hjm]
    rfl
  unfold shard_read
  rw [if_pos (by rw [hchunks_len]; exact hi)]
  rw [hhead i hi]
  dsimp only
  by_cases hlast : i < C - 1
  · rw [if_pos hlast, hhead (i + 1) (by omega)]
    dsimp only
    rw [read_records_eq sizes _ _ (sum_take_mono _ (by omega))
      (le_trans (hPle (i + 1) (by omega)) hmn)]
  · rw [if_neg hlast]
    have hieq : i = C - 1 := by omega
    have hnext : ((splitSizes m C).take (i + 1)).sum = m := by
      have : i + 1 = C := by omega
      rw [this, hPsum]
    rcases hco with ⟨hco1, hco2⟩ | hco1
    · subst hco1
      rw [read_records_none_eq sizes _ (le_trans (hPle i (by omega)) hmn)]
      rw [hnext, ← hco2]
    · subst hco1
      rw [read_records_eq sizes _ m (hPle i (by omega)) hmn, hnext]

/-- Resolution of the clip handling of `tfrecord_iterator` over a
well-formed index: every admissible clip value reduces iteration to a
clip offset `co` and the index of the first `m` records. -/
theorem iter_clipped_cases (sizes : List ℕ) (C : ℕ) (clip : Option ℕ)
    (hC : 0 < C) (hM : C ≤ sizes.length)
    (hclip : ∀ c, clip = some c → c = 0 ∨ (C ≤ c ∧ c ≤ sizes.length)) :
    ∃ (m : ℕ) (co : Option ℕ),
      C ≤ m ∧ m ≤ sizes.length ∧
      ((co = none ∧ m = sizes.length) ∨ co = some (recOffset sizes m)) ∧
      ∀ sh : Option (ℕ × ℕ), tfrecord_iterator sizes (wfIndex sizes) sh clip =
        match sh with
        | none => Except.ok (read_records sizes 0 co)
        | some (si, sc) =>
            shard_read sizes ((List.range m).map (recOffset sizes)) co si sc := by
  have hwf : wfIndex sizes = (List.range sizes.length).map (recOffset sizes) := rfl
  have hwflen : (wfIndex sizes).length = sizes.length := by simp [wfIndex]
  match clip with
  | none =>
    refine ⟨sizes.length, none, hM, le_rfl, Or.inl ⟨rfl, rfl⟩, ?_⟩
    intro sh
    match sh with
    | none => rfl
    | some (si, sc) => rfl
  | some c =>
    rcases hclip c rfl with hc0 | ⟨hcC, hcn⟩
    · subst hc0
      refine ⟨sizes.length, none, hM, le_rfl, Or.inl ⟨rfl, rfl⟩, ?_⟩
      intro sh
      match sh with
      | none => rfl
      | some (si, sc) => rfl
    · have hc0 : c ≠ 0 := by omega
      rcases Nat.lt_or_ge c sizes.length with hlt | hge
      · -- 0 < c < length: clip offset is index[c]
        have hidx : (wfIndex sizes)[c]? = some (recOffset sizes c) := by
          rw [hwf, List.getElem?_map, List.getElem?_range hlt]
          rfl
        have htake : (wfIndex sizes).take c = (List.range c).map (recOffset sizes) := by
          rw [hwf, ← List.map_take, List.take_range, min_eq_left (le_of_lt hlt)]
        refine ⟨c, some (recOffset sizes c), hcC, le_of_lt hlt, Or.inr rfl, ?_⟩
        intro sh
        unfold tfrecord_iterator
        dsimp only
        rw [if_neg hc0, if_neg (by rw [hwflen]; omega), hidx, htake]
      · -- c = length: clip offset stays none, index is kept whole
        have hceq : c = sizes.length := by omega
        have htake : (wfIndex sizes).take c = wfIndex sizes :=
          List.take_of_length_le (by rw [hwflen]; omega)
        refine ⟨sizes.length, none, hM, le_rfl, Or.inl ⟨rfl, rfl⟩, ?_⟩
        intro sh
        unfold tfrecord_iterator
        dsimp only
        rw [if_neg hc0, if_pos (by rw [hwflen]; omega), htake]
        match sh with
        | none => rfl
        | some (si, sc) => rfl

/-- C5 amended: sharding coverage of `tfrecord_iterator`.  For a record
file with a well-formed index of M entries, a shard count C with
0 < C ≤ M, and any clip value that is absent, zero, or between C and M
inclusive: every shard succeeds and yields one contiguous run of
records, and the concatenation of the per-shard yields over shard indices
0..C-1 equals the yield of the unsharded (clipped) iteration exactly — no
duplicates and no omissions. -/
theorem shard_coverage (sizes : List ℕ) (C : ℕ) (clip : Option ℕ)
    (hC : 0 < C) (hM : C ≤ sizes.length)
    (hclip : ∀ c, clip = some c → c = 0 ∨ (C ≤ c ∧ c ≤ sizes.length)) :
    (∀ i, i < C → ∃ s k,
      tfrecord_iterator sizes (wfIndex sizes) (some (i, C)) clip =
        Except.ok (List.range' s k)) ∧
    (∃ l, tfrecord_iterator sizes (wfIndex sizes) none clip = Except.ok l) ∧
    ((List.range C).map (fun i =>
        okList (tfrecord_iterator sizes (wfIndex sizes) (some (i, C)) clip))).flatten
      = okList (tfrecord_iterator sizes (wfIndex sizes) none clip) ∧
    ((List.range C).map (fun i =>
        okList (tfrecord_iterator sizes (wfIndex sizes) (some (i, C)) clip))).flatten.Nodup := by
  obtain ⟨m, co, hm, hmn, hco, hiter⟩ := iter_clipped_cases sizes C clip hC hM hclip
  have hshard : ∀ i, i < C →
      tfrecord_iterator sizes (wfIndex sizes) (some (i, C)) clip =
        Except.ok (List.range' (((splitSizes m C).take i).sum)
          (((splitSizes m C).take (i + 1)).sum - ((splitSizes m C).take i).sum)) := by
    intro i hi
    rw [hiter (some (i, C))]
    exact shard_read_eq sizes m C i co hco hi hm hmn
  have hread0 : read_records sizes 0 co = List.range m := by
    rcases hco with ⟨hco1, hco2⟩ | hco1
    · subst hco1
      have : read_records sizes (recOffset sizes 0) none =
          List.range' 0 (sizes.length - 0) := read_records_none_eq sizes 0 (by omega)
      rw [recOffset_zero] at this
      rw [this, Nat.sub_zero, hco2, List.range_eq_range']
    · subst hco1
      have : read_records sizes (recOffset sizes 0) (some (recOffset sizes m)) =
          List.range' 0 (m - 0) := read_records_eq sizes 0 m (by omega) hmn
      rw [recOffset_zero] at this
      rw [this, Nat.sub_zero, List.range_eq_range']
  have hun : tfrecord_iterator sizes (wfIndex sizes) none clip =
      Except.ok (List.range m) := by
    rw [hiter none, hread0]
  have hPmono : Monotone (fun j => ((splitSizes m C).take j).sum) :=
    fun x y hxy => sum_take_mono _ hxy
  have hPsum : ((splitSizes m C).take C).sum = m := by
    rw [List.take_of_length_le (by rw [splitSizes_length]), splitSizes_sum m C hC]
  have hjoin : ((List.range C).map (fun i =>
      okList (tfrecord_iterator sizes (wfIndex sizes) (some (i, C)) clip))).flatten
      = List.range m := by
    have hmap : (List.range C).map (fun i =>
        okList (tfrecord_iterator sizes (wfIndex sizes) (some (i, C)) clip)) =
        (List.range C).map (fun i =>
          List.range' (((splitSizes m C).take i).sum)
            (((splitSizes m C).take (i + 1)).sum - ((splitSizes m C).take i).sum)) := by
      apply List.map_congr_left
      intro i hi
      rw [List.mem_range] at hi
      rw [hshard i hi]
      rfl
    rw [hmap, List.range_eq_range',
      flatten_consecutive (fun j => ((splitSizes m C).take j).sum) hPmono C 0]
    simp only [Nat.zero_add, List.take_zero, List.sum_nil, Nat.sub_zero, hPsum]
    rw [List.range_eq_range']
  refine ⟨?_, ⟨List.range m, hun⟩, ?_, ?_⟩
  · intro i hi
    exact ⟨_, _, hshard i hi⟩
  · rw [hjoin, hun]
    rfl
  · rw [hjoin]
    exact List.nodup_range m

/-- C5 counterexample: the claim fails for clip values below the shard
count.  With a two-record file, clip 1 and shard count 2, the clipped
index has a single entry, `np.array_split` leaves the second chunk
empty, and both shards raise `IndexError` instead of yielding records —
while the unsharded clipped iteration yields record 0.  The shard union
therefore cannot equal the unsharded iteration. -/
theorem shard_coverage_counterexample :
    tfrecord_iterator [1, 1] (wfIndex [1, 1]) (some (1, 2)) (some 1)
      = Except.error "IndexError: empty shard" ∧
    tfrecord_iterator [1, 1] (wfIndex [1, 1]) (some (0, 2)) (some 1)
      = Except.error "IndexError: empty shard" ∧
    tfrecord_iterator [1, 1] (wfIndex [1, 1]) none (some 1) = Except.ok [0] := by
  decide

/-- C5 witness: a three-record file split into two shards with no clip. -/
theorem shard_coverage_witness :
    ((List.range 2).map (fun i =>
        okList (tfrecord_iterator [3, 5, 2] (wfIndex [3, 5, 2]) (some (i, 2)) none))).flatten
      = okList (tfrecord_iterator [3, 5, 2] (wfIndex [3, 5, 2]) none none) ∧
    ((List.range 2).map (fun i =>
        okList (tfrecord_iterator [3, 5, 2] (wfIndex [3, 5, 2]) (some (i, 2)) none))).flatten.Nodup :=
  ⟨(shard_coverage [3, 5, 2] 2 none (by decide) (by decide) (fun c hc => nomatch hc)).2.2.1,
   (shard_coverage [3, 5, 2] 2 none (by decide) (by decide) (fun c hc => nomatch hc)).2.2.2⟩

end Slideflow
